import Mathlib

/-!
Shallow embedding of the vocabulary-learning bot (files `data_base_tools.py`,
`main.py`, `notification_scheduler.py`).  The relational store is modelled as
explicit lists, SQL statements as list operations on them, and Python's
`random.randint(1, 40)` as an oracle stream `s : Nat → Nat`, each draw being
`s i % 40 + 1` (which is exactly the contract of `randint(1, 40)`: a value in
`[1, 40]`).  Loops of the form `while True: ...` are given a fuel parameter and
return `Option`; `none` means the fuel ran out (the loop did not yet
terminate).  `cursor.fetchone()` returning `None` followed by a subscript, and
every other failure, is modelled by `Option`.
-/

namespace TgBot

/-- A row of the `words` table (`data_base.py`, `create_tables`):
word_id, the English surface form, its translation and a definition/example. -/
structure Word where
  word_id : Nat
  word : String
  translation : String
  definition : String
deriving DecidableEq, Repr

/-- A row of the `words_to_users` table: (word_id, user_id, learn_counter). -/
structure WTURow where
  word_id : Nat
  user_id : Nat
  learn_counter : Nat
deriving DecidableEq, Repr

/-- The three tables the bot manipulates (`words`, `users`, `words_to_users`). -/
structure DB where
  words : List Word
  users : List Nat
  words_to_users : List WTURow
deriving DecidableEq, Repr

/-- `BotDB.word_to_word_id`: `SELECT word_id FROM words WHERE translation LIKE %s`
followed by `fetchone()`.  `LIKE` with a pattern holding no metacharacter is a
case-sensitive exact match; `fetchone()` yields the first matching row or `None`. -/
def word_to_word_id (db : DB) (w : String) : Option Nat :=
  (db.words.find? (fun x => x.translation == w)).map (fun x => x.word_id)

/-- `BotDB.word_id_to_word`: `SELECT word FROM words WHERE word_id=%s`, then
`fetchone()[0]` (the subscript on `None` fails, hence `Option`). -/
def word_id_to_word (db : DB) (wid : Nat) : Option String :=
  (db.words.find? (fun x => x.word_id == wid)).map (fun x => x.word)

/-- `BotDB.all_users_list`: `SELECT user_id FROM users`. -/
def all_users_list (db : DB) : List Nat :=
  db.users

/-- `BotDB.all_main_words_ids`: `SELECT word_id FROM words`. -/
def all_main_words_ids (db : DB) : List Nat :=
  db.words.map (fun x => x.word_id)

/-- The nested sampling loops of `BotDB.generate_10_words`:
`for _ in range(count): while True: word_id = randint(1, 40); if word_id not in
used_ids: used_ids.append(word_id); break`.  `i` indexes the oracle stream,
`fuel` bounds the total number of draws, `used` is `used_ids`. -/
def sampleLoop (s : Nat → Nat) : Nat → Nat → Nat → List Nat → Option (List Nat)
  | _, 0, _, used => some used
  | 0, _ + 1, _, _ => none
  | fuel + 1, count + 1, i, used =>
    let w := s i % 40 + 1
    if w ∈ used then sampleLoop s fuel (count + 1) (i + 1) used
    else sampleLoop s fuel count (i + 1) (used ++ [w])

/-- `BotDB.generate_10_words`: draws 10 ids via `sampleLoop` (the source draws
`randint(1, 40)` — a fixed range independent of the `words` table) and inserts
one `words_to_users` row per id.  The schema (`data_base.py`, `create_tables`)
declares `word_id INTEGER NOT NULL REFERENCES words(word_id)`: a drawn id
outside the `words` table violates that foreign key, the uncaught error aborts
the registration transaction before its `conn.commit()`, and nothing is
stored — modelled as `none` exactly when some drawn id is not a lexicon id. -/
def generate_10_words (s : Nat → Nat) (fuel : Nat) (user_id learn_counter : Nat)
    (db : DB) : Option DB :=
  match sampleLoop s fuel 10 0 [] with
  | none => none
  | some ids =>
    if ∀ wid ∈ ids, wid ∈ all_main_words_ids db then
      some { db with words_to_users :=
        db.words_to_users ++ ids.map (fun wid => ⟨wid, user_id, learn_counter⟩) }
    else none

/-- `BotDB.register_user`: inserts the user and calls `generate_10_words`
(with its default `learn_counter=0`) only when the user is absent from `users`. -/
def register_user (s : Nat → Nat) (fuel : Nat) (user_id : Nat) (db : DB) :
    Option DB :=
  if user_id ∈ all_users_list db then some db
  else generate_10_words s fuel user_id 0 { db with users := db.users ++ [user_id] }

/-- `BotDB.drop_progress`: deletes the user's `words_to_users` rows and the
user's `users` row. -/
def drop_progress (user_id : Nat) (db : DB) : DB :=
  { db with
    words_to_users := db.words_to_users.filter (fun r => !(r.user_id == user_id)),
    users := db.users.filter (fun u => !(u == user_id)) }

/-- The `WHERE word_id=%s AND user_id=%s` clause shared by `delete_word`,
`add_learn_counter` and `check_if_learnt`. -/
def rowPred (wid user_id : Nat) : WTURow → Bool :=
  fun r => r.word_id == wid && r.user_id == user_id

/-- `BotDB.delete_word`: looks the id up by translation, then
`DELETE FROM words_to_users WHERE word_id=%s AND user_id=%s`.  When the lookup
returned `None` the `WHERE word_id=NULL` clause matches no row. -/
def delete_word (user_id : Nat) (w : String) (db : DB) : DB :=
  match word_to_word_id db w with
  | none => db
  | some wid =>
    { db with words_to_users :=
        db.words_to_users.filter (fun r => !(rowPred wid user_id r)) }

/-- `BotDB.all_words_ids`: `SELECT word_id FROM words_to_users WHERE user_id=%s`. -/
def all_words_ids (db : DB) (user_id : Nat) : List Nat :=
  (db.words_to_users.filter (fun r => r.user_id == user_id)).map (fun r => r.word_id)

/-- `BotDB.count_words_to_learn`: number of the user's rows with `learn_counter < 5`. -/
def count_words_to_learn (db : DB) (user_id : Nat) : Nat :=
  (db.words_to_users.filter
    (fun r => r.user_id == user_id && decide (r.learn_counter < 5))).length

/-- `BotDB.count_words_already_learnt`: number of the user's rows with
`learn_counter >= 5`. -/
def count_words_already_learnt (db : DB) (user_id : Nat) : Nat :=
  (db.words_to_users.filter
    (fun r => r.user_id == user_id && decide (5 ≤ r.learn_counter))).length

/-- The retry loop of `BotDB.add_word`: `while True: word_id = randint(1, 40);
all_ids = self.all_words_ids(user_id); if word_id not in all_ids: break`.
The store is not modified inside the loop, so `all_ids` is the same list at
every iteration. -/
def addLoop (s : Nat → Nat) (assigned : List Nat) : Nat → Nat → Option Nat
  | 0, _ => none
  | fuel + 1, i =>
    let w := s i % 40 + 1
    if w ∈ assigned then addLoop s assigned fuel (i + 1) else some w

/-- `BotDB.add_word`: runs the retry loop, inserts one row with the given
`learn_counter`, and returns the chosen word id. -/
def add_word (s : Nat → Nat) (fuel : Nat) (user_id learn_counter : Nat) (db : DB) :
    Option (Nat × DB) :=
  (addLoop s (all_words_ids db user_id) fuel 0).map (fun wid =>
    (wid, { db with words_to_users := db.words_to_users ++ [⟨wid, user_id, learn_counter⟩] }))

/-- `BotDB.add_learn_counter`: looks the id up by translation (case-sensitive
`LIKE` on the given text), then `UPDATE words_to_users SET
learn_counter=learn_counter+1 WHERE word_id=%s AND user_id=%s`.  A `None` id
makes the `WHERE` clause match no row. -/
def add_learn_counter (user_id : Nat) (w : String) (db : DB) : DB :=
  match word_to_word_id db w with
  | none => db
  | some wid =>
    { db with words_to_users := db.words_to_users.map (fun r =>
        if rowPred wid user_id r then
          ⟨r.word_id, r.user_id, r.learn_counter + 1⟩
        else r) }

/-- `BotDB.check_if_learnt`: looks the id up by translation, then
`SELECT learn_counter ... fetchone()[0]`.  With no matching row `fetchone()`
yields `None` and the subscript fails: modelled as `none`. -/
def check_if_learnt (user_id : Nat) (w : String) (db : DB) : Option Nat :=
  match word_to_word_id db w with
  | none => none
  | some wid =>
    (db.words_to_users.find? (rowPred wid user_id)).map (fun r => r.learn_counter)

/-! ### `main.py`: quiz-engine handlers -/

/-- Outcome of `main.add_new_word`: either the maximum-reached message or the
success message naming the newly added word. -/
inductive AddOutcome where
  | maxWords
  | added (w : String)
deriving DecidableEq, Repr

/-- `main.add_new_word`: when the user's `words_to_users` row count equals the
`words` row count it sends the maximum-reached message; otherwise it calls
`bot_db.add_word(user_id)` and renders `bot_db.word_id_to_word` of the result. -/
def add_new_word (s : Nat → Nat) (fuel : Nat) (user_id : Nat) (db : DB) :
    Option (AddOutcome × DB) :=
  if (all_words_ids db user_id).length = (all_main_words_ids db).length then
    some (AddOutcome.maxWords, db)
  else
    match add_word s fuel user_id 0 db with
    | none => none
    | some (wid, db2) => (word_id_to_word db2 wid).map (fun w => (AddOutcome.added w, db2))

/-- Whether an `add_new_word` run ended with the maximum-reached message. -/
def isMaxWords : Option (AddOutcome × DB) → Bool
  | some (AddOutcome.maxWords, _) => true
  | _ => false

/-- One character of Python `str.lower()` on this program's data: the Unicode
simple case fold restricted to Latin A-Z and Cyrillic А-Я / Ё (U+0410..U+042F
map by +0x20, Ё U+0401 maps to ё U+0451) — the alphabets of the bot's English
words and Russian translations. -/
def charLower (c : Char) : Char :=
  if 65 ≤ c.toNat ∧ c.toNat ≤ 90 then Char.ofNat (c.toNat + 32)
  else if 1040 ≤ c.toNat ∧ c.toNat ≤ 1071 then Char.ofNat (c.toNat + 32)
  else if c.toNat = 1025 then Char.ofNat 1105
  else c

/-- Python `str.lower()`, modelled characterwise via `charLower`. -/
def strLower (s : String) : String :=
  ⟨s.data.map charLower⟩

/-- Outcome of `main.handle_user_answer` for a non-empty text message. -/
inductive AnswerOutcome where
  | correct (mastered : Bool)
  | special
  | next
  | addRequested
  | deleteRequested
  | mismatch
deriving DecidableEq, Repr

/-- The command tokens `main.handle_user_answer` routes to `handle_special_commands`. -/
def specialCommands : List String :=
  ["/start", "/menu", "/subscribe", "/unsubscribe"]

/-- `Command.NEXT` in `main.py`. -/
def cmdNEXT : String := "Пропустить ⏭"

/-- `Command.ADD_WORD` in `main.py`. -/
def cmdADD : String := "Добавить слово ➕"

/-- `Command.DELETE_WORD` in `main.py`. -/
def cmdDELETE : String := "Удалить слово❌"

/-- `main.handle_user_answer` composed with `main.handle_correct_answer`, for a
non-empty text message.  The stored target (`data['english_word']`, holding the
`translation` column of the asked word) is compared case-insensitively with the
submission; on a match `add_learn_counter` runs on the submitted text and the
mastery flag is `check_if_learnt(...) == 5`; otherwise the fixed command tokens
are dispatched, and any other text is the incorrect-answer (reprompt) branch. -/
def handle_user_answer (user_id : Nat) (english_word user_message : String)
    (db : DB) : Option (AnswerOutcome × DB) :=
  if strLower user_message == strLower english_word then
    let db2 := add_learn_counter user_id user_message db
    match check_if_learnt user_id user_message db2 with
    | none => none
    | some c => some (AnswerOutcome.correct (c == 5), db2)
  else if user_message ∈ specialCommands then some (AnswerOutcome.special, db)
  else if user_message == cmdNEXT then some (AnswerOutcome.next, db)
  else if user_message == cmdADD then some (AnswerOutcome.addRequested, db)
  else if user_message == cmdDELETE then some (AnswerOutcome.deleteRequested, db)
  else some (AnswerOutcome.mismatch, db)

/-- `BotDB.get_random_examples`: `SELECT ... ORDER by random()` then
`fetchone()`; modelled as picking the row at a stream-chosen index.  On an
empty `words` table `fetchone()` yields `None` and `res[0]` fails. -/
def get_random_examples (db : DB) (k : Nat) : Option Word :=
  db.words.get? (k % db.words.length)

/-- The accumulation loop of `main.generate_buttons`:
`while len(other_words_btns) < 4: other_words_btns.add(get_random_examples()[1])`,
with the Python set modelled as a duplicate-free list in insertion order. -/
def choiceLoop (db : DB) (s : Nat → Nat) : Nat → Nat → List String → Option (List String)
  | 0, _, acc => if 4 ≤ acc.length then some acc else none
  | fuel + 1, i, acc =>
    if 4 ≤ acc.length then some acc
    else
      match get_random_examples db (s i) with
      | none => none
      | some x =>
        choiceLoop db s fuel (i + 1)
          (if x.translation ∈ acc then acc else acc ++ [x.translation])

/-- `random.shuffle`, modelled by repeatedly extracting the element at a
stream-chosen index; its contract is to permute the list. -/
def shuffle (t : Nat → Nat) : Nat → Nat → List String → List String
  | 0, _, l => l
  | fuel + 1, i, l =>
    match l with
    | [] => []
    | y :: ys =>
      let x := (y :: ys).get ⟨t i % (y :: ys).length, Nat.mod_lt _ (Nat.succ_pos ys.length)⟩
      x :: shuffle t fuel (i + 1) ((y :: ys).erase x)

/-- `main.generate_buttons` (the four answer choices, before the three fixed
command buttons are appended): seeds the set with the correct translation,
fills it to 4 with random translations, turns it into a list and shuffles. -/
def generate_buttons (db : DB) (s t : Nat → Nat) (fuel : Nat) (english_word : String) :
    Option (List String) :=
  (choiceLoop db s fuel 0 [english_word]).map (fun choices =>
    shuffle t choices.length 0 choices)

/-! ### `notification_scheduler.py`

Python attribute semantics matter here: `subscribers={}` in the class body
creates ONE dict when the class object is built; `self.subscribers[...] = True`
and `del self.subscribers[...]` are item operations that first resolve the
attribute (instance `__dict__` first, then the class) and then mutate that dict
in place, so no instance ever acquires its own `subscribers` entry.  We model
the heap of dicts explicitly: an instance carries the optional heap reference
its own `__dict__` holds for `subscribers`, and resolution falls back to the
class-level reference. -/

/-- Heap of dictionaries; a subscriber dict `user_id → True` is just its key list. -/
structure NotifState where
  heap : List (List Nat)
deriving DecidableEq, Repr

/-- One `Notification` instance: the `subscribers` entry of its own `__dict__`,
if any.  `__init__` stores only `self.bot`, so constructed instances carry `none`. -/
structure NotifInstance where
  ownSubscribers : Option Nat
deriving DecidableEq, Repr

/-- Heap reference of the class-level dict created by `subscribers={}`. -/
def subscribersClassRef : Nat := 0

/-- Process start: the class body has run, creating one empty dict. -/
def initNotifState : NotifState := ⟨[[]]⟩

/-- `Notification.__init__`: sets only `self.bot`, so the instance `__dict__`
has no `subscribers` entry. -/
def notifInit : NotifInstance := ⟨none⟩

/-- Python attribute resolution for `self.subscribers`: the instance
`__dict__` first, else the class attribute. -/
def resolveSubscribers (inst : NotifInstance) : Nat :=
  inst.ownSubscribers.getD subscribersClassRef

/-- `Notification.start`: `if user_id not in self.subscribers:
self.subscribers[user_id] = True` (item assignment mutates the resolved dict). -/
def notifSubscribe (inst : NotifInstance) (user : Nat) (st : NotifState) : NotifState :=
  let r := resolveSubscribers inst
  let d := st.heap.getD r []
  if user ∈ d then st else ⟨st.heap.set r (d ++ [user])⟩

/-- `Notification.stop`: `if user_id in self.subscribers:
del self.subscribers[user_id]`. -/
def notifUnsubscribe (inst : NotifInstance) (user : Nat) (st : NotifState) : NotifState :=
  let r := resolveSubscribers inst
  let d := st.heap.getD r []
  if user ∈ d then ⟨st.heap.set r (d.filter (fun x => !(x == user)))⟩ else st

/-- `Notification.job`: iterates `self.subscribers.keys()` to send the reminder;
the value returned is the list of notified users. -/
def notifJob (inst : NotifInstance) (st : NotifState) : List Nat :=
  st.heap.getD (resolveSubscribers inst) []

/-- A subscribe or unsubscribe request handled by the conversation controller. -/
inductive SubOp where
  | sub (u : Nat)
  | unsub (u : Nat)
deriving DecidableEq, Repr

/-- Dispatch one request through a given `Notification` instance. -/
def applyOp (inst : NotifInstance) (st : NotifState) : SubOp → NotifState
  | SubOp.sub u => notifSubscribe inst u st
  | SubOp.unsub u => notifUnsubscribe inst u st

/-- Dispatch a sequence of requests through a given `Notification` instance. -/
def applyOps (inst : NotifInstance) : List SubOp → NotifState → NotifState
  | [], st => st
  | op :: ops, st => applyOps inst ops (applyOp inst st op)

/-- The instance built inside `start_reminders(bot)` (`main.py` line 56), whose
`job` the daily timer runs. -/
def schedulerInstance : NotifInstance := notifInit

/-- The instance `notification = Notification(bot)` (`main.py` line 57) used by
the `/subscribe` and `/unsubscribe` handlers. -/
def controllerInstance : NotifInstance := notifInit

/-! ### Concrete fixtures (used by counterexamples and witnesses) -/

/-- The identity oracle stream: the k-th draw of `randint(1, 40)` is `k % 40 + 1`. -/
def sId : Nat → Nat := fun n => n

/-- The constant-zero oracle stream: every draw of `randint(1, 40)` is `1`. -/
def s0 : Nat → Nat := fun _ => 0

/-- The constant-one oracle stream: every draw of `randint(1, 40)` is `2`. -/
def s1 : Nat → Nat := fun _ => 1

/-- The effect of one subscription request on the subscriber dict. -/
def opEffect : SubOp → List Nat → List Nat
  | SubOp.sub u, d => if u ∈ d then d else d ++ [u]
  | SubOp.unsub u, d => if u ∈ d then d.filter (fun x => !(x == u)) else d

/-- A lexicon of `n` words with ids `1..n`. -/
def mkWords (n : Nat) : List Word :=
  (List.range n).map (fun k => ⟨k + 1, "w", "t", "d"⟩)

/-- A store whose lexicon has 5 words and no user yet. -/
def db5 : DB := ⟨mkWords 5, [], []⟩

/-- A store whose lexicon has 12 words and no user yet. -/
def db12 : DB := ⟨mkWords 12, [], []⟩

/-- The store produced by registering user 7 in `db12` with the identity stream. -/
def db12reg : DB := ⟨mkWords 12, [7], (List.range 10).map (fun k => ⟨k + 1, 7, 0⟩)⟩

/-- A store whose lexicon has 41 words, user 7 holding ids `1..40`. -/
def db41 : DB := ⟨mkWords 41, [7], (List.range 40).map (fun k => ⟨k + 1, 7, 0⟩)⟩

/-- `add_new_word` diverges on a state: it yields no result however much fuel
the sampling loop receives. -/
def add_new_word_diverges (s : Nat → Nat) (user_id : Nat) (db : DB) : Prop :=
  ∀ fuel, add_new_word s fuel user_id db = none

/-- A store whose lexicon has exactly 1 word, already assigned to user 7. -/
def db1 : DB := ⟨[⟨1, "Apple", "Яблоко", "ex"⟩], [7], [⟨1, 7, 0⟩]⟩

/-- A two-word lexicon, user 7 holding only id 1. -/
def dbW3 : DB := ⟨[⟨1, "Cat", "Кот", "e"⟩, ⟨2, "Dog", "Пёс", "e"⟩], [7], [⟨1, 7, 0⟩]⟩

/-- `dbW3` after `add_word` picked id 2 for user 7. -/
def dbW3add : DB :=
  ⟨[⟨1, "Cat", "Кот", "e"⟩, ⟨2, "Dog", "Пёс", "e"⟩], [7], [⟨1, 7, 0⟩, ⟨2, 7, 0⟩]⟩

/-- A one-word lexicon whose translation column holds `"Apple"`, the word
assigned to user 7 with counter 0. -/
def dbApple : DB := ⟨[⟨1, "Cat", "Apple", "e"⟩], [7], [⟨1, 7, 0⟩]⟩

/-- A four-word lexicon with four distinct translations. -/
def dbQuad : DB :=
  ⟨[⟨1, "A0", "A", "e"⟩, ⟨2, "B0", "B", "e"⟩, ⟨3, "C0", "C", "e"⟩, ⟨4, "D0", "D", "e"⟩],
   [7], [⟨1, 7, 0⟩]⟩

/-- Iterated `add_learn_counter` for the same user and text. -/
def iterInc (user_id : Nat) (w : String) : Nat → DB → DB
  | 0, db => db
  | n + 1, db => add_learn_counter user_id w (iterInc user_id w n db)

/-! ### Helper lemmas -/

/-- Translation lookup depends only on the `words` table. -/
theorem word_to_word_id_words (db db2 : DB) (h : db2.words = db.words) (w : String) :
    word_to_word_id db2 w = word_to_word_id db w := by
  simp [word_to_word_id, h]

/-- The user's rows split into those below the mastery threshold and the rest. -/
theorem count_partition (u : Nat) (l : List WTURow) :
    (l.filter (fun r => r.user_id == u && decide (r.learn_counter < 5))).length +
      (l.filter (fun r => r.user_id == u && decide (5 ≤ r.learn_counter))).length =
      (l.filter (fun r => r.user_id == u)).length := by
  induction l with
  | nil => rfl
  | cons a l ih =>
    simp only [List.filter_cons]
    by_cases h1 : a.user_id = u
    · by_cases h2 : a.learn_counter < 5
      · have h3 : ¬ (5 ≤ a.learn_counter) := by omega
        simp [h1, h2, h3]
        omega
      · have h3 : 5 ≤ a.learn_counter := by omega
        simp [h1, h2, h3]
        omega
    · have hb : (a.user_id == u) = false := by simp [h1]
      simp only [hb, Bool.false_and, if_false]
      exact ih

/-- `find?` of a predicate whose `filter` is a singleton yields that element. -/
theorem find?_of_filter_singleton (p : WTURow → Bool) (l : List WTURow) (a : WTURow)
    (h : l.filter p = [a]) : l.find? p = some a := by
  induction l with
  | nil => simp at h
  | cons b l ih =>
    by_cases hb : p b = true
    · rw [List.filter_cons_of_pos hb] at h
      rw [List.find?_cons_of_pos _ hb]
      simpa using congrArg List.head? h
    · rw [List.filter_cons_of_neg (by simpa using hb)] at h
      rw [List.find?_cons_of_neg _ (by simpa using hb)]
      exact ih h

/-- The `UPDATE` of `add_learn_counter` maps the matching rows and the matching
rows only, so filtering for the match commutes with the update. -/
theorem filter_map_incr (wid user_id : Nat) (l : List WTURow) :
    (l.map (fun r => if rowPred wid user_id r then
        (⟨r.word_id, r.user_id, r.learn_counter + 1⟩ : WTURow) else r)).filter
        (rowPred wid user_id) =
      (l.filter (rowPred wid user_id)).map
        (fun r => ⟨r.word_id, r.user_id, r.learn_counter + 1⟩) := by
  induction l with
  | nil => rfl
  | cons a l ih =>
    by_cases h : rowPred wid user_id a = true
    · have h2 : rowPred wid user_id ⟨a.word_id, a.user_id, a.learn_counter + 1⟩ = true := by
        revert h
        simp [rowPred]
      simp only [List.map_cons, h, if_true, List.filter_cons, h2]
      simp [ih]
    · have hb : rowPred wid user_id a = false := by simpa using h
      simp only [List.map_cons, hb, Bool.false_eq_true, if_false, List.filter_cons]
      simp [hb, ih]

/-! ### Claim C6 -/

/-- Claim C6: for every user and word, deleting the word and then asking for its
counter signals absence (the row lookup yields nothing, modelling the failing
`fetchone()[0]`), never a stale counter value. -/
theorem c6_delete_then_not_found (user_id : Nat) (w : String) (db : DB) :
    check_if_learnt user_id w (delete_word user_id w db) = none := by
  cases hlk : word_to_word_id db w with
  | none =>
    have hdb : delete_word user_id w db = db := by simp [delete_word, hlk]
    rw [hdb]
    simp [check_if_learnt, hlk]
  | some wid =>
    have hw : (delete_word user_id w db).words = db.words := by
      simp [delete_word, hlk]
    have hlk2 : word_to_word_id (delete_word user_id w db) w = some wid := by
      rw [word_to_word_id_words _ _ hw, hlk]
    have hfind : (delete_word user_id w db).words_to_users.find? (rowPred wid user_id) = none := by
      rw [List.find?_eq_none]
      intro x hx
      have hmem : x ∈ db.words_to_users.filter (fun r => !(rowPred wid user_id r)) := by
        simpa [delete_word, hlk] using hx
      have := (List.mem_filter.mp hmem).2
      simp only [Bool.not_eq_true'] at this
      simp [this]
    simp [check_if_learnt, hlk2, hfind]

/-! ### Claim C7 -/

/-- Claim C7: for every user and every state of the store, the number of
pending words plus the number of mastered words equals the number of words
assigned to the user. -/
theorem c7_pending_plus_mastered (db : DB) (user_id : Nat) :
    count_words_to_learn db user_id + count_words_already_learnt db user_id =
      (all_words_ids db user_id).length := by
  have h := count_partition user_id db.words_to_users
  simpa [count_words_to_learn, count_words_already_learnt, all_words_ids] using h

/-! ### Claim C8 -/

/-- Claim C8: registration is idempotent — for a user already present in the
`users` table, `register_user` returns the store unchanged (no new words, no
counter changes). -/
theorem c8_register_idempotent (s : Nat → Nat) (fuel user_id : Nat) (db : DB)
    (h : user_id ∈ db.users) :
    register_user s fuel user_id db = some db := by
  simp [register_user, all_users_list, h]

/-- Witness for C8 at a concrete store containing user 7. -/
theorem c8_register_idempotent_witness :
    7 ∈ dbApple.users ∧ register_user s0 0 7 dbApple = some dbApple :=
  ⟨by decide, c8_register_idempotent s0 0 7 dbApple (by decide)⟩

/-! ### Sampling lemmas -/

/-- What the nested loops of `generate_10_words` guarantee when they finish:
the accumulated list grew by `count` fresh draws, duplicates were skipped, and
every new element lies in the `randint(1, 40)` range. -/
theorem sampleLoop_spec (s : Nat → Nat) :
    ∀ fuel count i used ids, sampleLoop s fuel count i used = some ids →
      ids.length = used.length + count ∧ (used.Nodup → ids.Nodup) ∧
      ∀ x ∈ ids, x ∈ used ∨ (1 ≤ x ∧ x ≤ 40) := by
  intro fuel
  induction fuel with
  | zero =>
    intro count i used ids h
    cases count with
    | zero =>
      have huse : used = ids := by simpa [sampleLoop] using h
      subst huse
      exact ⟨by simp, fun h => h, fun x hx => Or.inl hx⟩
    | succ c => simp [sampleLoop] at h
  | succ n ih =>
    intro count i used ids h
    cases count with
    | zero =>
      have huse : used = ids := by simpa [sampleLoop] using h
      subst huse
      exact ⟨by simp, fun h => h, fun x hx => Or.inl hx⟩
    | succ c =>
      simp only [sampleLoop] at h
      by_cases hm : (s i % 40 + 1) ∈ used
      · rw [if_pos hm] at h
        exact ih (c + 1) (i + 1) used ids h
      · rw [if_neg hm] at h
        obtain ⟨h1, h2, h3⟩ := ih c (i + 1) (used ++ [s i % 40 + 1]) ids h
        refine ⟨by simp at h1; omega, ?_, ?_⟩
        · intro hnd
          exact h2 (List.Nodup.append hnd (List.nodup_singleton _)
            (by simpa [List.disjoint_singleton] using hm))
        · intro x hx
          rcases h3 x hx with hx2 | hx2
          · rcases List.mem_append.mp hx2 with hx3 | hx3
            · exact Or.inl hx3
            · have hxe : x = s i % 40 + 1 := by simpa using hx3
              have hlt : s i % 40 < 40 := Nat.mod_lt _ (by norm_num)
              exact Or.inr ⟨by omega, by omega⟩
          · exact Or.inr hx2

/-- What the retry loop of `add_word` guarantees when it breaks: the chosen id
is outside the assigned list and inside the `randint(1, 40)` range. -/
theorem addLoop_spec (s : Nat → Nat) (assigned : List Nat) :
    ∀ fuel i wid, addLoop s assigned fuel i = some wid →
      wid ∉ assigned ∧ 1 ≤ wid ∧ wid ≤ 40 := by
  intro fuel
  induction fuel with
  | zero => intro i wid h; simp [addLoop] at h
  | succ n ih =>
    intro i wid h
    simp only [addLoop] at h
    by_cases hm : (s i % 40 + 1) ∈ assigned
    · rw [if_pos hm] at h
      exact ih (i + 1) wid h
    · rw [if_neg hm] at h
      have hw : s i % 40 + 1 = wid := by simpa using h
      have hlt : s i % 40 < 40 := Nat.mod_lt _ (by norm_num)
      subst hw
      exact ⟨hm, by omega, by omega⟩

/-- Projecting the word id back out of freshly built rows. -/
theorem map_word_id_mk (user_id : Nat) (ids : List Nat) :
    (ids.map (fun wid => (⟨wid, user_id, 0⟩ : WTURow))).map (fun r => r.word_id) = ids := by
  induction ids with
  | nil => rfl
  | cons a l ih => simp [ih]

/-! ### Claim C1 -/

/-- Counterexample to claim C1 as stated: at the 5-word lexicon `db5`,
registering fresh user 7 does not create the user with min(10, 5) = 5 assigned
words.  `generate_10_words` draws 10 distinct ids from `randint(1, 40)`; they
cannot all be among the 5 lexicon ids, so the insert violates the
`words_to_users → words` foreign key and the whole registration fails with
nothing stored. -/
theorem c1_counterexample :
    register_user sId 20 7 db5 = none ∧
    db5.words.length = 5 ∧
    min 10 db5.words.length = 5 ∧
    7 ∉ db5.users := by
  refine ⟨by decide, by decide, by decide, by decide⟩

/-- Claim C1 (amended): for a user absent from the user table with no assigned
rows, `register_user` either fails with nothing stored — the foreign-key
violation, which necessarily happens whenever the lexicon has fewer than 10
words — or creates the user and assigns exactly 10 distinct word ids, each a
lexicon id inside the fixed range 1..40, each with repetition counter 0; so a
successful registration implies the lexicon has at least 10 words, and the
claimed min(10, lexicon size) assignment never happens for smaller lexicons. -/
theorem c1_register_assigns_ten (s : Nat → Nat) (fuel user_id : Nat) (db db2 : DB)
    (hnew : user_id ∉ db.users) (hfresh : all_words_ids db user_id = [])
    (hreg : register_user s fuel user_id db = some db2) :
    user_id ∈ db2.users ∧ (all_words_ids db2 user_id).length = 10 ∧
    (all_words_ids db2 user_id).Nodup ∧
    (∀ r ∈ db2.words_to_users, r.user_id = user_id →
      r.learn_counter = 0 ∧ 1 ≤ r.word_id ∧ r.word_id ≤ 40 ∧
      r.word_id ∈ all_main_words_ids db) ∧
    10 ≤ db.words.length := by
  unfold register_user at hreg
  rw [if_neg (by simpa [all_users_list] using hnew)] at hreg
  unfold generate_10_words at hreg
  cases hids : sampleLoop s fuel 10 0 [] with
  | none =>
    rw [hids] at hreg
    exact absurd hreg (by simp)
  | some ids =>
    simp only [hids] at hreg
    split at hreg
    next hall =>
      injection hreg with hdb2
      subst hdb2
      obtain ⟨hlen, hnd, hrange⟩ := sampleLoop_spec s fuel 10 0 [] ids hids
      have hall2 : ∀ wid ∈ ids, wid ∈ all_main_words_ids db := by
        simpa [all_main_words_ids] using hall
      have hfilter : db.words_to_users.filter (fun r => r.user_id == user_id) = [] := by
        unfold all_words_ids at hfresh
        exact List.map_eq_nil_iff.mp hfresh
      have hset : all_words_ids
          { db with
            users := db.users ++ [user_id],
            words_to_users := db.words_to_users ++
              ids.map (fun wid => ⟨wid, user_id, 0⟩) } user_id = ids := by
        unfold all_words_ids
        simp only [List.filter_append, hfilter, List.nil_append]
        rw [List.filter_eq_self.mpr]
        · exact map_word_id_mk user_id ids
        · intro r hr
          obtain ⟨wid, hwid, rfl⟩ := List.mem_map.mp hr
          simp
      have hnd10 : ids.Nodup := hnd List.nodup_nil
      have hlen10 : ids.length = 10 := by simpa using hlen
      refine ⟨by simp, ?_, ?_, ?_, ?_⟩
      · rw [hset]
        exact hlen10
      · rw [hset]
        exact hnd10
      · intro r hr hu
        rcases List.mem_append.mp hr with hr2 | hr2
        · exfalso
          have : r ∈ db.words_to_users.filter (fun r => r.user_id == user_id) :=
            List.mem_filter.mpr ⟨hr2, by simp [hu]⟩
          rw [hfilter] at this
          simp at this
        · obtain ⟨wid, hwid, rfl⟩ := List.mem_map.mp hr2
          rcases hrange wid hwid with hx | hx
          · simp at hx
          · exact ⟨rfl, hx.1, hx.2, hall2 wid hwid⟩
      · have hsub : ids.toFinset ⊆ (all_main_words_ids db).toFinset := by
          intro x hx
          rw [List.mem_toFinset] at hx ⊢
          exact hall2 x hx
        have hcard : ids.toFinset.card = 10 := by
          rw [List.toFinset_card_of_nodup hnd10]
          exact hlen10
        have h10 : 10 ≤ (all_main_words_ids db).length :=
          calc 10 = ids.toFinset.card := hcard.symm
          _ ≤ (all_main_words_ids db).toFinset.card := Finset.card_le_card hsub
          _ ≤ (all_main_words_ids db).length := (all_main_words_ids db).toFinset_card_le
        simpa [all_main_words_ids] using h10
    next => cases hreg

/-- Witness for the amended C1 at a concrete 12-word lexicon and fresh user 7:
the registration succeeds and assigns ids 1..10, all lexicon ids. -/
theorem c1_register_assigns_ten_witness :
    7 ∈ db12reg.users ∧ (all_words_ids db12reg 7).length = 10 ∧
    (all_words_ids db12reg 7).Nodup ∧
    (∀ r ∈ db12reg.words_to_users, r.user_id = 7 →
      r.learn_counter = 0 ∧ 1 ≤ r.word_id ∧ r.word_id ≤ 40 ∧
      r.word_id ∈ all_main_words_ids db12) ∧
    10 ≤ db12.words.length :=
  c1_register_assigns_ten sId 20 7 db12 db12reg (by decide) (by decide) (by decide)

/-! ### Claim C2 -/

/-- With user 7 of `db41` holding every id `1..40`, no draw of `randint(1, 40)`
can break the retry loop of `add_word`: it runs out of any amount of fuel. -/
theorem addLoop_db41_none : ∀ fuel i, addLoop s0 (all_words_ids db41 7) fuel i = none := by
  intro fuel
  induction fuel with
  | zero => intro i; rfl
  | succ n ih =>
    intro i
    have hmem : (s0 i % 40 + 1) ∈ all_words_ids db41 7 := by
      show (1 : Nat) ∈ all_words_ids db41 7
      decide
    simp only [addLoop]
    rw [if_pos hmem]
    exact ih (i + 1)

/-- Counterexample to claim C2 as stated: on `db41` (41-word lexicon, user 7
holding ids 1..40) the handler `add_new_word` does invoke the sampling loop —
the exhaustion guard does not fire since 40 ≠ 41 — and the loop never
terminates, because `add_word` draws from `randint(1, 40)` only. -/
theorem c2_counterexample :
    add_new_word_diverges s0 7 db41 ∧
    (all_words_ids db41 7).length ≠ (all_main_words_ids db41).length := by
  refine ⟨?_, by decide⟩
  intro fuel
  have hg : ¬ ((all_words_ids db41 7).length = (all_main_words_ids db41).length) := by decide
  unfold add_new_word
  rw [if_neg hg]
  unfold add_word
  rw [addLoop_db41_none fuel 0]
  rfl

/-- Claim C2 (amended): with a lexicon of exactly 1 word and a user whose
assigned set already holds 1 word, `add_new_word` reports exhaustion via the
caller's size guard — without running the sampling loop — for every stream and
every fuel; the sampling loop itself does not terminate on every invocation
(see the counterexample). -/
theorem c2_one_word_exhaustion (s : Nat → Nat) (fuel user_id : Nat) (db : DB)
    (h1 : db.words.length = 1) (h2 : (all_words_ids db user_id).length = 1) :
    add_new_word s fuel user_id db = some (AddOutcome.maxWords, db) := by
  have h3 : (all_main_words_ids db).length = 1 := by
    simp [all_main_words_ids, h1]
  unfold add_new_word
  rw [if_pos (by rw [h2, h3])]

/-- Witness for the amended C2 at the concrete 1-word store `db1`. -/
theorem c2_one_word_exhaustion_witness :
    db1.words.length = 1 ∧ (all_words_ids db1 7).length = 1 ∧
    add_new_word s0 3 7 db1 = some (AddOutcome.maxWords, db1) :=
  ⟨by decide, by decide, c2_one_word_exhaustion s0 3 7 db1 (by decide) (by decide)⟩

/-! ### Claim C3 -/

/-- Claim C3: `add_word` never returns a word id already in the user's assigned
list, and when it returns it has created exactly one new row with counter 0;
the handler reports the distinct maximum-reached condition exactly when the
user's assigned count equals the lexicon count (the `Nodup` hypotheses record
the primary-key uniqueness of both tables, making counts set sizes). -/
theorem c3_add_word_contract (s : Nat → Nat) (fuel user_id : Nat) (db : DB)
    (_h1 : (all_words_ids db user_id).Nodup) (_h2 : (all_main_words_ids db).Nodup) :
    (∀ wid db2, add_word s fuel user_id 0 db = some (wid, db2) →
      wid ∉ all_words_ids db user_id ∧
      db2 = { db with words_to_users := db.words_to_users ++ [⟨wid, user_id, 0⟩] }) ∧
    (isMaxWords (add_new_word s fuel user_id db) = true ↔
      (all_words_ids db user_id).length = (all_main_words_ids db).length) := by
  constructor
  · intro wid db2 h
    unfold add_word at h
    rw [Option.map_eq_some'] at h
    obtain ⟨a, ha, heq⟩ := h
    injection heq with hA hB
    subst hA
    subst hB
    exact ⟨(addLoop_spec s _ fuel 0 a ha).1, rfl⟩
  · by_cases hg : (all_words_ids db user_id).length = (all_main_words_ids db).length
    · unfold add_new_word
      rw [if_pos hg]
      simpa [isMaxWords] using hg
    · unfold add_new_word
      rw [if_neg hg]
      constructor
      · intro h
        exfalso
        cases haw : add_word s fuel user_id 0 db with
        | none => rw [haw] at h; simp [isMaxWords] at h
        | some p =>
          obtain ⟨wid, db2⟩ := p
          rw [haw] at h
          cases hw : word_id_to_word db2 wid with
          | none => simp [hw, isMaxWords] at h
          | some w => simp [hw, isMaxWords] at h
      · intro h
        exact absurd h hg

/-- Witness for C3 at `dbW3` (two-word lexicon, user 7 holding id 1): the
sampling picks id 2, which is not yet assigned. -/
theorem c3_add_word_contract_witness :
    (2 ∉ all_words_ids dbW3 7 ∧
      dbW3add = { dbW3 with words_to_users := dbW3.words_to_users ++ [⟨2, 7, 0⟩] }) ∧
    (isMaxWords (add_new_word s1 5 7 dbW3) = true ↔
      (all_words_ids dbW3 7).length = (all_main_words_ids dbW3).length) := by
  have h := c3_add_word_contract s1 5 7 dbW3 (by decide) (by decide)
  exact ⟨h.1 2 dbW3add (by decide), h.2⟩

/-! ### Counter-increment lemmas (shared by C4 and C5) -/

/-- One `add_learn_counter` call on a store whose rows matching
`(wid, user_id)` are exactly one row with counter `c`: the lexicon is
untouched, that row's counter becomes `c + 1`, and `check_if_learnt`
afterwards reads `c + 1`. -/
theorem add_learn_counter_step (user_id : Nat) (t : String) (db : DB) (wid c : Nat)
    (hlook : word_to_word_id db t = some wid)
    (hrow : db.words_to_users.filter (rowPred wid user_id) = [⟨wid, user_id, c⟩]) :
    (add_learn_counter user_id t db).words = db.words ∧
    (add_learn_counter user_id t db).words_to_users.filter (rowPred wid user_id) =
      [⟨wid, user_id, c + 1⟩] ∧
    check_if_learnt user_id t (add_learn_counter user_id t db) = some (c + 1) := by
  have hwords : (add_learn_counter user_id t db).words = db.words := by
    simp [add_learn_counter, hlook]
  have hwtu : (add_learn_counter user_id t db).words_to_users =
      db.words_to_users.map (fun r => if rowPred wid user_id r then
        (⟨r.word_id, r.user_id, r.learn_counter + 1⟩ : WTURow) else r) := by
    simp [add_learn_counter, hlook]
  have hfil : (add_learn_counter user_id t db).words_to_users.filter (rowPred wid user_id) =
      [⟨wid, user_id, c + 1⟩] := by
    rw [hwtu, filter_map_incr, hrow]
    rfl
  refine ⟨hwords, hfil, ?_⟩
  have hlook2 : word_to_word_id (add_learn_counter user_id t db) t = some wid := by
    rw [word_to_word_id_words _ _ hwords, hlook]
  have hfind := find?_of_filter_singleton (rowPred wid user_id) _ _ hfil
  simp [check_if_learnt, hlook2, hfind]

/-- Along iterated exact-text increments the lookup stays fixed and the single
matching row's counter counts the iterations. -/
theorem iterInc_invariant (user_id : Nat) (t : String) (wid : Nat) :
    ∀ n (db : DB) c, word_to_word_id db t = some wid →
      db.words_to_users.filter (rowPred wid user_id) = [⟨wid, user_id, c⟩] →
      word_to_word_id (iterInc user_id t n db) t = some wid ∧
      (iterInc user_id t n db).words_to_users.filter (rowPred wid user_id) =
        [⟨wid, user_id, c + n⟩] := by
  intro n
  induction n with
  | zero => intro db c h1 h2; exact ⟨h1, by simpa using h2⟩
  | succ m ih =>
    intro db c h1 h2
    obtain ⟨p1, p2⟩ := ih db c h1 h2
    have step := add_learn_counter_step user_id t (iterInc user_id t m db) wid (c + m) p1 p2
    have hstepdb : iterInc user_id t (m + 1) db =
        add_learn_counter user_id t (iterInc user_id t m db) := rfl
    rw [hstepdb]
    refine ⟨?_, ?_⟩
    · rw [word_to_word_id_words _ _ step.1]
      exact p1
    · rw [step.2.1]
      have : c + m + 1 = c + (m + 1) := by omega
      rw [this]

/-! ### Claim C4 -/

/-- Counterexample to claim C4 as stated: on `db1` (stored Russian translation
`"Яблоко"`, counter 0) the submission `"яблоко"` matches case-insensitively
(`str.lower()` folds Cyrillic), yet no counter is incremented —
`add_learn_counter` looks the word up by the submitted text with a
case-sensitive `LIKE`, finds nothing, and leaves the store unchanged — and the
handler then fails in `check_if_learnt` instead of reporting the match result. -/
theorem c4_counterexample :
    strLower "яблоко" = strLower "Яблоко" ∧
    "яблоко" ≠ "Яблоко" ∧
    handle_user_answer 7 "Яблоко" "яблоко" db1 = none ∧
    add_learn_counter 7 "яблоко" db1 = db1 ∧
    check_if_learnt 7 "Яблоко" db1 = some 0 := by
  refine ⟨by decide, by decide, by decide, by decide, by decide⟩

/-- Claim C4 (amended): the comparison is case-insensitive, and on a
submission equal to the stored translation exactly the counter is incremented
by exactly 1; but on a match that differs in case from every stored
translation the increment's case-sensitive lookup matches nothing — no state
changes and the mastery check fails; on a mismatch that is no command token
the handler reports failure and leaves the store unchanged. -/
theorem c4_case_sensitivity (user_id : Nat) (t sub : String) (db : DB) (wid c : Nat)
    (hlook : word_to_word_id db t = some wid)
    (hrow : db.words_to_users.filter (rowPred wid user_id) = [⟨wid, user_id, c⟩]) :
    (handle_user_answer user_id t t db =
        some (AnswerOutcome.correct (c + 1 == 5), add_learn_counter user_id t db) ∧
      check_if_learnt user_id t (add_learn_counter user_id t db) = some (c + 1)) ∧
    (strLower sub = strLower t → word_to_word_id db sub = none →
      add_learn_counter user_id sub db = db ∧
      handle_user_answer user_id t sub db = none) ∧
    (strLower sub ≠ strLower t → sub ∉ specialCommands →
      sub ≠ cmdNEXT → sub ≠ cmdADD → sub ≠ cmdDELETE →
      handle_user_answer user_id t sub db = some (AnswerOutcome.mismatch, db)) := by
  have step := add_learn_counter_step user_id t db wid c hlook hrow
  refine ⟨⟨?_, step.2.2⟩, ?_, ?_⟩
  · simp [handle_user_answer, step.2.2]
  · intro hl hnone
    have hadd : add_learn_counter user_id sub db = db := by
      simp [add_learn_counter, hnone]
    refine ⟨hadd, ?_⟩
    simp only [handle_user_answer]
    rw [if_pos (by simp [hl])]
    rw [hadd]
    simp [check_if_learnt, hnone]
  · intro hne h1 h2 h3 h4
    simp only [handle_user_answer]
    rw [if_neg (by simpa using hne)]
    rw [if_neg h1]
    rw [if_neg (by simpa using h2)]
    rw [if_neg (by simpa using h3)]
    rw [if_neg (by simpa using h4)]

/-- Witness for the amended C4 on `db1` (stored Russian translation
`"Яблоко"`): exact case increments 0 → 1; the genuinely case-insensitive
Cyrillic variant `"яблоко"` falls into the no-increment-and-fail branch; an
unrelated answer is reported as a mismatch with the store unchanged. -/
theorem c4_case_sensitivity_witness :
    strLower "яблоко" = strLower "Яблоко" ∧
    handle_user_answer 7 "Яблоко" "Яблоко" db1 =
      some (AnswerOutcome.correct false, add_learn_counter 7 "Яблоко" db1) ∧
    check_if_learnt 7 "Яблоко" (add_learn_counter 7 "Яблоко" db1) = some 1 ∧
    add_learn_counter 7 "яблоко" db1 = db1 ∧
    handle_user_answer 7 "Яблоко" "яблоко" db1 = none ∧
    handle_user_answer 7 "Яблоко" "Привет" db1 = some (AnswerOutcome.mismatch, db1) := by
  have h := c4_case_sensitivity 7 "Яблоко" "яблоко" db1 1 0 (by decide) (by decide)
  have h2 := h.2.1 (by decide) (by decide)
  have h3 := (c4_case_sensitivity 7 "Яблоко" "Привет" db1 1 0 (by decide) (by decide)).2.2
    (by decide) (by decide) (by decide) (by decide) (by decide)
  exact ⟨by decide, h.1.1, h.1.2, h2.1, h2.2, h3⟩

/-! ### Claim C5 -/

/-- Claim C5: with a single (wid, user) row starting at counter 0 and
exact-text correct submissions, after 5 increments the counter reads exactly 5,
and each submission reports the mastery flag true exactly when it takes the
counter from 4 to 5 — false on earlier submissions and false again on the 6th
(k = 5) correct submission. -/
theorem c5_mastery_threshold (user_id : Nat) (t : String) (db : DB) (wid : Nat)
    (hlook : word_to_word_id db t = some wid)
    (hrow : db.words_to_users.filter (rowPred wid user_id) = [⟨wid, user_id, 0⟩]) :
    check_if_learnt user_id t (iterInc user_id t 5 db) = some 5 ∧
    ∀ k, k ≤ 5 →
      handle_user_answer user_id t t (iterInc user_id t k db) =
        some (AnswerOutcome.correct (k + 1 == 5), iterInc user_id t (k + 1) db) ∧
      ((k + 1 == 5) = true ↔ k = 4) := by
  constructor
  · obtain ⟨p1, p2⟩ := iterInc_invariant user_id t wid 5 db 0 hlook hrow
    have hfind := find?_of_filter_singleton (rowPred wid user_id) _ _ p2
    simp [check_if_learnt, p1, hfind]
  · intro k _hk
    obtain ⟨p1, p2⟩ := iterInc_invariant user_id t wid k db 0 hlook hrow
    have hz : (0 : Nat) + k = k := by omega
    rw [hz] at p2
    have step := add_learn_counter_step user_id t (iterInc user_id t k db) wid k p1 p2
    constructor
    · have hiter : iterInc user_id t (k + 1) db =
          add_learn_counter user_id t (iterInc user_id t k db) := rfl
      rw [hiter]
      simp [handle_user_answer, step.2.2]
    · rw [beq_iff_eq]
      omega

/-- Witness for C5 on `dbApple`: the counter reaches exactly 5, the flag fires
on the 5th submission only, and a 6th correct submission reports a match with
the flag false. -/
theorem c5_mastery_threshold_witness :
    check_if_learnt 7 "Apple" (iterInc 7 "Apple" 5 dbApple) = some 5 ∧
    handle_user_answer 7 "Apple" "Apple" (iterInc 7 "Apple" 4 dbApple) =
      some (AnswerOutcome.correct true, iterInc 7 "Apple" 5 dbApple) ∧
    handle_user_answer 7 "Apple" "Apple" (iterInc 7 "Apple" 5 dbApple) =
      some (AnswerOutcome.correct false, iterInc 7 "Apple" 6 dbApple) := by
  have h := c5_mastery_threshold 7 "Apple" dbApple 1 (by decide) (by decide)
  exact ⟨h.1, (h.2 4 (by omega)).1, (h.2 5 (by omega)).1⟩

/-! ### Claim C9 -/

/-- The accumulation loop of `generate_buttons` keeps the set duplicate-free,
never drops an element, and stops at exactly 4. -/
theorem choiceLoop_spec (db : DB) (s : Nat → Nat) :
    ∀ fuel i acc res, acc.length ≤ 4 → acc.Nodup →
      choiceLoop db s fuel i acc = some res →
      res.length = 4 ∧ res.Nodup ∧ ∀ x ∈ acc, x ∈ res := by
  intro fuel
  induction fuel with
  | zero =>
    intro i acc res hle hnd h
    simp only [choiceLoop] at h
    split at h
    · cases h
      exact ⟨by omega, hnd, fun x hx => hx⟩
    · cases h
  | succ n ih =>
    intro i acc res hle hnd h
    simp only [choiceLoop] at h
    split at h
    case isTrue h4 =>
      cases h
      exact ⟨by omega, hnd, fun x hx => hx⟩
    case isFalse h4 =>
      cases hex : get_random_examples db (s i) with
      | none => rw [hex] at h; cases h
      | some x =>
        simp only [hex] at h
        by_cases hmem : x.translation ∈ acc
        · rw [if_pos hmem] at h
          exact ih (i + 1) acc res hle hnd h
        · rw [if_neg hmem] at h
          have hres := ih (i + 1) (acc ++ [x.translation]) res
            (by simp; omega)
            (List.Nodup.append hnd (List.nodup_singleton _)
              (by simpa [List.disjoint_singleton] using hmem)) h
          exact ⟨hres.1, hres.2.1, fun y hy => hres.2.2 y (by simp [hy])⟩

/-- The model of `random.shuffle` permutes its input. -/
theorem shuffle_perm (t : Nat → Nat) :
    ∀ fuel i l, (shuffle t fuel i l).Perm l := by
  intro fuel
  induction fuel with
  | zero => intro i l; simp [shuffle]
  | succ n ih =>
    intro i l
    cases l with
    | nil => simp [shuffle]
    | cons y ys =>
      simp only [shuffle]
      have hmem : (y :: ys).get
          ⟨t i % (y :: ys).length, Nat.mod_lt _ (Nat.succ_pos ys.length)⟩ ∈ y :: ys :=
        List.get_mem _ _ _
      exact ((ih (i + 1) _).cons _).trans (List.perm_cons_erase hmem).symm

/-- Claim C9: whenever `generate_buttons` returns, the four answer choices are
exactly 4 pairwise-distinct translation strings, one of which is the supplied
correct translation; the shuffle only permutes them. -/
theorem c9_generate_buttons (db : DB) (s t : Nat → Nat) (fuel : Nat) (w : String)
    (res : List String) (h : generate_buttons db s t fuel w = some res) :
    res.length = 4 ∧ res.Nodup ∧ w ∈ res := by
  unfold generate_buttons at h
  rw [Option.map_eq_some'] at h
  obtain ⟨choices, hc, hres⟩ := h
  subst hres
  obtain ⟨h1, h2, h3⟩ := choiceLoop_spec db s fuel 0 [w] choices
    (by simp) (List.nodup_singleton w) hc
  have hp := shuffle_perm t choices.length 0 choices
  refine ⟨by rw [hp.length_eq]; exact h1, hp.nodup_iff.mpr h2, ?_⟩
  exact hp.mem_iff.mpr (h3 w (by simp))

/-- Witness for C9: on the four-translation lexicon `dbQuad` the loop returns
the choices A, B, C, D. -/
theorem c9_generate_buttons_witness :
    generate_buttons dbQuad sId s0 6 "A" = some ["A", "B", "C", "D"] ∧
    (["A", "B", "C", "D"] : List String).length = 4 ∧
    (["A", "B", "C", "D"] : List String).Nodup ∧
    "A" ∈ (["A", "B", "C", "D"] : List String) := by
  have h := c9_generate_buttons dbQuad sId s0 6 "A" ["A", "B", "C", "D"] (by decide)
  exact ⟨by decide, h⟩

/-! ### Claim C10 -/

/-- A subscribe or unsubscribe through an instance whose `__dict__` lacks a
`subscribers` entry mutates the single class-level dict. -/
theorem applyOp_singleton (inst : NotifInstance) (hinst : inst.ownSubscribers = none)
    (d : List Nat) (op : SubOp) :
    applyOp inst ⟨[d]⟩ op = ⟨[opEffect op d]⟩ := by
  cases op with
  | sub u =>
    by_cases hm : u ∈ d
    · simp [applyOp, notifSubscribe, resolveSubscribers, hinst, subscribersClassRef,
        opEffect, hm]
    · simp [applyOp, notifSubscribe, resolveSubscribers, hinst, subscribersClassRef,
        opEffect, hm]
  | unsub u =>
    by_cases hm : u ∈ d
    · simp [applyOp, notifUnsubscribe, resolveSubscribers, hinst, subscribersClassRef,
        opEffect, hm]
    · simp [applyOp, notifUnsubscribe, resolveSubscribers, hinst, subscribersClassRef,
        opEffect, hm]

/-- Request sequences through the controller's instance keep the heap a single
class-level dict. -/
theorem applyOps_singleton :
    ∀ (ops : List SubOp) (d : List Nat),
      ∃ d2, applyOps controllerInstance ops ⟨[d]⟩ = ⟨[d2]⟩ := by
  intro ops
  induction ops with
  | nil => intro d; exact ⟨d, rfl⟩
  | cons op ops ih =>
    intro d
    have hstep := applyOp_singleton controllerInstance rfl d op
    obtain ⟨d2, hd2⟩ := ih (opEffect op d)
    exact ⟨d2, by simp [applyOps, hstep, hd2]⟩

/-- Claim C10: the subscriber set is one class-level dict shared by every
`Notification` instance — after any sequence of subscribe/unsubscribe requests
handled through the conversation controller's instance, the set the reminder
scheduler's separately constructed instance iterates in `job` is exactly the
set the controller's instance sees, one more subscribe through the controller
is immediately visible to the scheduler's `job`, and at process start the set
is empty. -/
theorem c10_shared_subscribers :
    notifJob schedulerInstance initNotifState = [] ∧
    ∀ (ops : List SubOp) (u : Nat),
      notifJob schedulerInstance (applyOps controllerInstance ops initNotifState) =
        notifJob controllerInstance (applyOps controllerInstance ops initNotifState) ∧
      notifJob schedulerInstance
          (applyOp controllerInstance (applyOps controllerInstance ops initNotifState)
            (SubOp.sub u)) =
        (if u ∈ notifJob controllerInstance (applyOps controllerInstance ops initNotifState)
          then notifJob controllerInstance (applyOps controllerInstance ops initNotifState)
          else notifJob controllerInstance
            (applyOps controllerInstance ops initNotifState) ++ [u]) := by
  refine ⟨rfl, ?_⟩
  intro ops u
  obtain ⟨d, hd⟩ := applyOps_singleton ops []
  have hinit : initNotifState = (⟨[[]]⟩ : NotifState) := rfl
  rw [hinit, hd]
  constructor
  · rfl
  · have hstep := applyOp_singleton controllerInstance rfl d (SubOp.sub u)
    rw [hstep]
    by_cases hm : u ∈ d
    · simp [opEffect, hm, notifJob, resolveSubscribers, schedulerInstance,
        controllerInstance, notifInit, subscribersClassRef]
    · simp [opEffect, hm, notifJob, resolveSubscribers, schedulerInstance,
        controllerInstance, notifInit, subscribersClassRef]

end TgBot
